import Mathlib

/-!
# Verification of the biosite ingestion pipeline (`src/app.py`)

This file gives a shallow embedding of the WhatsApp-deal ingestion pipeline of
`src/app.py` and settles the specification claims against it.

Modelling conventions:
* Python `bytes` values are `List Nat` (each entry `< 256`).
* Python machine-independent integers are `Nat` (all timestamps in scope are
  non-negative epoch seconds).
* `hashlib.sha256(s.encode("utf-8")).hexdigest()` is embedded as an executable
  SHA-256 over the UTF-8 bytes of the string (FIPS 180-4).
* `datetime.fromtimestamp(n, tz=timezone.utc)` rendered through `str()` /
  an f-string is embedded as `datetime_str` below, producing
  `"YYYY-MM-DD HH:MM:SS+00:00"` via the standard civil-from-days algorithm.
  `datetime.now(timezone.utc)` is modelled as an epoch-seconds input `now`
  (whole seconds; the sub-second digits Python would add only make replays
  even less idempotent, which never weakens a claim proved here).
* Network I/O (`requests.get` in `download_media`) is modelled by an oracle
  `String → FetchOutcome` that describes, per media id, the outcome of the two
  chained HTTP calls.  Raised exceptions are `Except.error ()`.
* The database table `whatsapp.deals` is a `List Deal`; the
  `INSERT ... ON CONFLICT (url_hash) DO NOTHING` of `save_deal` is
  `insertDeal`, which appends unless the `url_hash` is already present.
-/

set_option maxHeartbeats 2000000
set_option maxRecDepth 20000

namespace Biosite

/-! ## SHA-256 (embedding of `hashlib.sha256(...).hexdigest()`, FIPS 180-4) -/

/-- Addition modulo `2^32`. -/
def add32 (a b : Nat) : Nat := (a + b) % 4294967296

/-- Right rotation of a 32-bit word. -/
def rotr32 (n x : Nat) : Nat := ((x >>> n) ||| (x <<< (32 - n))) % 4294967296

/-- SHA-256 `Σ0`. -/
def bsig0 (x : Nat) : Nat := (rotr32 2 x) ^^^ (rotr32 13 x) ^^^ (rotr32 22 x)

/-- SHA-256 `Σ1`. -/
def bsig1 (x : Nat) : Nat := (rotr32 6 x) ^^^ (rotr32 11 x) ^^^ (rotr32 25 x)

/-- SHA-256 `σ0`. -/
def ssig0 (x : Nat) : Nat := (rotr32 7 x) ^^^ (rotr32 18 x) ^^^ (x >>> 3)

/-- SHA-256 `σ1`. -/
def ssig1 (x : Nat) : Nat := (rotr32 17 x) ^^^ (rotr32 19 x) ^^^ (x >>> 10)

/-- SHA-256 `Ch`. -/
def chf (x y z : Nat) : Nat := (x &&& y) ^^^ ((x ^^^ 4294967295) &&& z)

/-- SHA-256 `Maj`. -/
def majf (x y z : Nat) : Nat := (x &&& y) ^^^ (x &&& z) ^^^ (y &&& z)

/-- The 64 SHA-256 round constants. -/
def shaK : List Nat :=
  [1116352408, 1899447441, 3049323471, 3921009573, 961987163,
   1508970993, 2453635748, 2870763221, 3624381080, 310598401,
   607225278, 1426881987, 1925078388, 2162078206, 2614888103,
   3248222580, 3835390401, 4022224774, 264347078, 604807628,
   770255983, 1249150122, 1555081692, 1996064986, 2554220882,
   2821834349, 2952996808, 3210313671, 3336571891, 3584528711,
   113926993, 338241895, 666307205, 773529912, 1294757372,
   1396182291, 1695183700, 1986661051, 2177026350, 2456956037,
   2730485921, 2820302411, 3259730800, 3345764771, 3516065817,
   3600352804, 4094571909, 275423344, 430227734, 506948616,
   659060556, 883997877, 958139571, 1322822218, 1537002063,
   1747873779, 1955562222, 2024104815, 2227730452, 2361852424,
   2428436474, 2756734187, 3204031479, 3329325298]

/-- The eight 32-bit words of SHA-256 state. -/
structure Hash8 where
  h0 : Nat
  h1 : Nat
  h2 : Nat
  h3 : Nat
  h4 : Nat
  h5 : Nat
  h6 : Nat
  h7 : Nat
deriving DecidableEq

/-- Initial SHA-256 state. -/
def shaH0 : Hash8 :=
  ⟨1779033703, 3144134277, 1013904242, 2773480762,
   1359893119, 2600822924, 528734635, 1541459225⟩

/-- One SHA-256 round: state update for round constant `kw.1` and schedule word `kw.2`. -/
def shaRound (r : Hash8) (kw : Nat × Nat) : Hash8 :=
  let t1 := add32 (add32 (add32 (add32 r.h7 (bsig1 r.h4)) (chf r.h4 r.h5 r.h6)) kw.1) kw.2
  let t2 := add32 (bsig0 r.h0) (majf r.h0 r.h1 r.h2)
  ⟨add32 t1 t2, r.h0, r.h1, r.h2, add32 r.h3 t1, r.h4, r.h5, r.h6⟩

/-- Next word of the SHA-256 message schedule, from the words produced so far. -/
def nextW (w : List Nat) : Nat :=
  let l := w.length
  add32 (add32 (ssig1 (w.getD (l - 2) 0)) (w.getD (l - 7) 0))
        (add32 (ssig0 (w.getD (l - 15) 0)) (w.getD (l - 16) 0))

/-- Extend the message schedule by `n` further words. -/
def extendW : Nat → List Nat → List Nat
  | 0, w => w
  | n + 1, w => extendW n (w ++ [nextW w])

/-- Big-endian 32-bit words from a byte list (used on 64-byte blocks). -/
def bytesToWords : List Nat → List Nat
  | a :: b :: c :: d :: rest => (((a * 256 + b) * 256 + c) * 256 + d) :: bytesToWords rest
  | _ => []

/-- Compress one 64-byte block into the running state. -/
def compressBlock (st : Hash8) (blk : List Nat) : Hash8 :=
  let w := extendW 48 (bytesToWords blk)
  let fin := (shaK.zip w).foldl shaRound st
  ⟨add32 st.h0 fin.h0, add32 st.h1 fin.h1, add32 st.h2 fin.h2, add32 st.h3 fin.h3,
   add32 st.h4 fin.h4, add32 st.h5 fin.h5, add32 st.h6 fin.h6, add32 st.h7 fin.h7⟩

/-- The eight big-endian length bytes of the SHA-256 padding. -/
def lenBytes (n : Nat) : List Nat :=
  [(n >>> 56) % 256, (n >>> 48) % 256, (n >>> 40) % 256, (n >>> 32) % 256,
   (n >>> 24) % 256, (n >>> 16) % 256, (n >>> 8) % 256, n % 256]

/-- SHA-256 padding: `0x80`, zeros to 56 mod 64, then the bit length. -/
def padBytes (msg : List Nat) : List Nat :=
  msg ++ 128 :: List.replicate ((119 - msg.length % 64) % 64) 0 ++ lenBytes (msg.length * 8)

/-- Split a byte list into 64-byte blocks (`fuel` bounds the recursion; callers
pass the list length, which always suffices since each step consumes 64 bytes). -/
def toBlocks64 : Nat → List Nat → List (List Nat)
  | 0, _ => []
  | fuel + 1, l => if l = [] then [] else l.take 64 :: toBlocks64 fuel (l.drop 64)

/-- SHA-256 of a byte string, as the final eight-word state. -/
def sha256Core (msg : List Nat) : Hash8 :=
  (toBlocks64 (padBytes msg).length (padBytes msg)).foldl compressBlock shaH0

/-- Big-endian bytes of a 32-bit word. -/
def word4 (w : Nat) : List Nat :=
  [(w >>> 24) % 256, (w >>> 16) % 256, (w >>> 8) % 256, w % 256]

/-- The 32 digest bytes of a final state. -/
def digestBytes (st : Hash8) : List Nat :=
  [st.h0, st.h1, st.h2, st.h3, st.h4, st.h5, st.h6, st.h7].flatMap word4

/-- Lower-case hexadecimal digit characters. -/
def hexDigitCh (n : Nat) : Char :=
  if n < 10 then Char.ofNat (48 + n) else Char.ofNat (87 + n)

/-- Two hex characters of one byte, high nibble first (as in `hexdigest`). -/
def byteHex (b : Nat) : List Char :=
  [hexDigitCh ((b >>> 4) % 16), hexDigitCh (b % 16)]

/-- UTF-8 encoding of one character (as in `str.encode("utf-8")`). -/
def charUtf8 (c : Char) : List Nat :=
  let n := c.toNat
  if n < 128 then [n]
  else if n < 2048 then [192 + n / 64, 128 + n % 64]
  else if n < 65536 then [224 + n / 4096, 128 + (n / 64) % 64, 128 + n % 64]
  else [240 + n / 262144, 128 + (n / 4096) % 64, 128 + (n / 64) % 64, 128 + n % 64]

/-- UTF-8 bytes of a string. -/
def utf8Bytes (s : String) : List Nat := s.data.flatMap charUtf8

/-- Embedding of `sha256` (`src/app.py` lines 108-109):
`hashlib.sha256(s.encode("utf-8")).hexdigest()`. -/
def sha256 (s : String) : String :=
  ⟨(digestBytes (sha256Core (utf8Bytes s))).flatMap byteHex⟩

/-! ## `str(datetime.fromtimestamp(n, tz=timezone.utc))`

Python renders an aware UTC datetime with whole seconds as
`"YYYY-MM-DD HH:MM:SS+00:00"`.  The civil date is computed from the day number
with the standard era-based algorithm. -/

/-- Decimal digit character for `k % 10`. -/
def digitCh (k : Nat) : Char := Char.ofNat (48 + k % 10)

/-- Two-digit zero-padded decimal rendering (faithful for `n < 100`,
which holds for every month/day/hour/minute/second rendered below). -/
def pad2 (n : Nat) : List Char := [digitCh (n / 10), digitCh (n % 10)]

/-- Decimal digits of `n` (`fuel` bounds recursion; `n` itself always suffices). -/
def natChars : Nat → Nat → List Char
  | 0, n => [digitCh n]
  | fuel + 1, n => if n < 10 then [digitCh n] else natChars fuel (n / 10) ++ [digitCh (n % 10)]

/-- Zero-padded four-digit year (as `%04d`; years in scope have four digits). -/
def pad4 (n : Nat) : List Char :=
  let ds := natChars n n
  List.replicate (4 - ds.length) '0' ++ ds

/-- Civil date `(year, month, day)` from days since 1970-01-01
(Howard Hinnant's `civil_from_days`, restricted to non-negative days). -/
def civilFromDays (z : Nat) : Nat × Nat × Nat :=
  let z' := z + 719468
  let era := z' / 146097
  let doe := z' % 146097
  let yoe := (doe - doe / 1460 + doe / 36524 - doe / 146096) / 365
  let y := yoe + era * 400
  let doy := doe - (365 * yoe + yoe / 4 - yoe / 100)
  let mp := (5 * doy + 2) / 153
  let d := doy - (153 * mp + 2) / 5 + 1
  let m := if mp < 10 then mp + 3 else mp - 9
  (if m ≤ 2 then y + 1 else y, m, d)

/-- `"YYYY-MM-DD"` for a day number. -/
def dateChars (days : Nat) : List Char :=
  let c := civilFromDays days
  pad4 c.1 ++ '-' :: pad2 c.2.1 ++ '-' :: pad2 c.2.2

/-- `"HH:MM:SS"` for a second-of-day. -/
def timeChars (sod : Nat) : List Char :=
  pad2 (sod / 3600) ++ ':' :: pad2 (sod % 3600 / 60) ++ ':' :: pad2 (sod % 60)

/-- The fixed `"+00:00"` UTC offset suffix. -/
def tzChars : List Char := ['+', '0', '0', ':', '0', '0']

/-- Embedding of the string rendering of
`datetime.fromtimestamp(t, tz=timezone.utc)` for epoch seconds `t`
(as interpolated by the f-string in `save_deal`). -/
def datetime_str (t : Nat) : String :=
  ⟨dateChars (t / 86400) ++ ' ' :: (timeChars (t % 86400) ++ tzChars)⟩

/-! ## The link extractor (`URL_RE.findall`, `src/app.py` line 31)

`URL_RE = re.compile(r"(https?://[^\s<>()\"']+)", re.IGNORECASE)` and
`URL_RE.findall(text)`: a left-to-right, non-overlapping scan; at each position
the pattern matches `http`, an optional `s` (both case-insensitively), the
literal `://`, and then a maximal non-empty run of characters outside the
terminator set (whitespace and `< > ( ) " '`).  Greedily taking the optional
`s` is equivalent to the regex's backtracking: if the next character is an
`s`/`S`, declining it would require `:` to match that `s`, which fails.
`\s` is modelled by its ASCII part (the claims involve no exotic whitespace). -/

/-- The terminator set `[\s<>()"']` of `URL_RE`. -/
def isTermChar (c : Char) : Bool :=
  c == ' ' || c == Char.ofNat 9 || c == Char.ofNat 10 || c == Char.ofNat 13 ||
  c == Char.ofNat 11 || c == Char.ofNat 12 ||
  c == '<' || c == '>' || c == '(' || c == ')' || c == Char.ofNat 34 || c == Char.ofNat 39

/-- Match `://` followed by at least one non-terminator character; return the
matched characters and the remaining input. -/
def afterColon (l : List Char) : Option (List Char × List Char) :=
  match l with
  | ca :: cb :: cc :: r2 =>
    if ca == ':' && cb == '/' && cc == '/' then
      if (r2.takeWhile (fun c => !isTermChar c)).isEmpty then none
      else some (ca :: cb :: cc :: r2.takeWhile (fun c => !isTermChar c),
                 r2.dropWhile (fun c => !isTermChar c))
    else none
  | _ => none

/-- Match the optional `s` of the scheme, then `://` and the body. -/
def afterScheme (l : List Char) : Option (List Char × List Char) :=
  match l with
  | c5 :: rest =>
    if c5.toLower == 's' then (afterColon rest).map (fun p => (c5 :: p.1, p.2))
    else afterColon l
  | [] => none

/-- Try to match `URL_RE` at the head of `l`. -/
def matchHttpAt (l : List Char) : Option (List Char × List Char) :=
  match l with
  | c1 :: c2 :: c3 :: c4 :: rest =>
    if c1.toLower == 'h' && c2.toLower == 't' && c3.toLower == 't' && c4.toLower == 'p' then
      (afterScheme rest).map (fun p => (c1 :: c2 :: c3 :: c4 :: p.1, p.2))
    else none
  | _ => none

/-- The scan underlying `findall`: advance by one character on failure, past the
match on success (`fuel` bounds recursion; the input length always suffices
because every step consumes at least one character). -/
def scanUrlsAux : Nat → List Char → List (List Char)
  | 0, _ => []
  | fuel + 1, l =>
    match matchHttpAt l with
    | some p => p.1 :: scanUrlsAux fuel p.2
    | none =>
      match l with
      | [] => []
      | _ :: rest => scanUrlsAux fuel rest

/-- Embedding of `URL_RE.findall(text)`. -/
def urlFindall (s : String) : List String :=
  (scanUrlsAux s.data.length s.data).map String.mk

/-- The URL shape guaranteed for every extracted substring: a case-insensitive
`http://` or `https://` scheme followed by at least one character, with no
terminator character anywhere. -/
def urlShapedB (cs : List Char) : Bool :=
  (((cs.map Char.toLower).take 7 == "http://".data && decide (8 ≤ cs.length))
    || ((cs.map Char.toLower).take 8 == "https://".data && decide (9 ≤ cs.length)))
  && cs.all (fun c => !isTermChar c)

/-! ## Data model of the webhook payload and the store

Structured embedding of the JSON shapes traversed by `webhook_receive`
(`src/app.py` lines 230-299).  The code's tolerant lookups
(`x.get(k, d)`, `... or default`) are reflected by `Option` fields together
with the corresponding defaulting at the use site. -/

/-- The value the code reads from `m["timestamp"]`, abstracted by the two
operations performed on it: Python truthiness and `int(...)`.
`empty` is any falsy value (absent key is `Option.none` instead); `val n` is a
truthy value that `int()` converts to the (in-range, non-negative) epoch `n`;
`bad` is a truthy value on which `int()` or `fromtimestamp` raises. -/
inductive TsVal
  | empty
  | val (n : Nat)
  | bad
deriving DecidableEq

/-- The `m["image"]` object: optional caption and optional media id. -/
structure Img where
  caption : Option String
  id : Option String
deriving DecidableEq

/-- One element of `value["messages"]`. -/
structure Msg where
  wa_from : Option String
  timestamp : Option TsVal
  mtype : Option String
  body : Option String
  image : Option Img
deriving DecidableEq

/-- One element of `value["contacts"]`: `contact["profile"]["name"]`,
collapsed through the code's `(... or {}).get("name")`. -/
structure Contact where
  profileName : Option String
deriving DecidableEq

/-- `change["value"]`, with the code's list defaults already applied. -/
structure Value where
  contacts : List Contact
  messages : List Msg
deriving DecidableEq

/-- One element of `entry["changes"]`. -/
structure Change where
  value : Value
deriving DecidableEq

/-- One element of `payload["entry"]`. -/
structure Entry where
  changes : List Change
deriving DecidableEq

/-- A webhook payload. -/
structure Payload where
  entry : List Entry
deriving DecidableEq

/-- Outcome of the two chained media-API calls for one media id:
either the metadata request fails (non-success status), or it returns a JSON
object with an optional `url` (`none` also covers JSON `null`; the code treats
an empty string as missing too) and a `mime_type` entry
(`none` = key absent, `some none` = key present but `null`,
`some (some m)` = string `m`), together with the outcome of the content
request. -/
inductive FetchOutcome
  | metaFail
  | metaOk (url : Option String) (mimeRaw : Option (Option String)) (content : Except Unit (List Nat))

/-- Process-wide inputs of one webhook delivery: the configured
`WHATSAPP_TOKEN`, the current wall-clock time in epoch seconds
(`datetime.now(timezone.utc)`), and the network oracle. -/
structure Ctx where
  whatsapp_token : String
  now : Nat
  oracle : String → FetchOutcome

/-- A row of `whatsapp.deals` (`id` and `created_at` are irrelevant to the
claims and omitted; rows are kept in insertion order). -/
structure Deal where
  wa_from : Option String
  wa_name : Option String
  msg_time : Nat
  url : String
  url_hash : String
  image_bytes : Option (List Nat)
  image_mime : Option String
deriving DecidableEq

/-- Python's f-string rendering of an optional string: `None` prints as
`"None"`. -/
def pyStr : Option String → String
  | none => "None"
  | some s => s

/-- The pre-hash concatenation `f"{wa_from}|{wa_name}|{msg_time}|{url}"`
of `save_deal` (`src/app.py` line 138), over already-rendered fields. -/
def hashInput (a b c d : String) : String :=
  a ++ "|" ++ b ++ "|" ++ c ++ "|" ++ d

/-- The fingerprint `url_hash` computed by `save_deal`. -/
def dealHash (wa_from wa_name : Option String) (msg_time : Nat) (url : String) : String :=
  sha256 (hashInput (pyStr wa_from) (pyStr wa_name) (datetime_str msg_time) url)

/-- The row `save_deal` would insert: note
`Binary(image_bytes) if image_bytes else None` stores `NULL` for both `None`
and the empty byte string, while `image_mime` is stored as given. -/
def mkDeal (wa_from wa_name : Option String) (msg_time : Nat) (url : String)
    (image_bytes : Option (List Nat)) (image_mime : Option String) : Deal :=
  { wa_from := wa_from
    wa_name := wa_name
    msg_time := msg_time
    url := url
    url_hash := dealHash wa_from wa_name msg_time url
    image_bytes := match image_bytes with
      | some b => if b.isEmpty then none else some b
      | none => none
    image_mime := image_mime }

/-- `INSERT ... ON CONFLICT (url_hash) DO NOTHING` against the unique
`url_hash` column (`src/app.py` lines 143-147). -/
def insertDeal (db : List Deal) (d : Deal) : List Deal :=
  if db.any (fun x => x.url_hash == d.url_hash) then db else db ++ [d]

/-- Embedding of `download_media` (`src/app.py` lines 182-207): missing
credential, a failed metadata call, a missing/empty download URL, or a failed
content call raise; otherwise the bytes are returned with the declared MIME
type, defaulting to `application/octet-stream` only when the key is absent. -/
def download_media (ctx : Ctx) (media_id : String) : Except Unit (List Nat × Option String) :=
  if ctx.whatsapp_token = "" then .error ()
  else
    match ctx.oracle media_id with
    | .metaFail => .error ()
    | .metaOk url mimeRaw content =>
      match url with
      | none => .error ()
      | some u =>
        if u = "" then .error ()
        else
          match content with
          | .error e => .error e
          | .ok bs =>
            .ok (bs, match mimeRaw with
                     | none => some "application/octet-stream"
                     | some v => v)

/-- `msg_time` resolution (`src/app.py` lines 255-259): a truthy parseable
timestamp is converted from epoch seconds; a falsy or absent one falls back to
`datetime.now(timezone.utc)`; a truthy unparseable one raises `ValueError`. -/
def resolveTs (now : Nat) (ts : Option TsVal) : Except Unit Nat :=
  match ts with
  | none => .ok now
  | some .empty => .ok now
  | some (.val n) => .ok n
  | some .bad => .error ()

/-- The per-type text/media resolution of the message loop
(`src/app.py` lines 261-279): text messages scan their body; image messages
scan their caption and fetch media when an id is present and truthy; any other
type contributes empty text and no media. -/
def msgContent (ctx : Ctx) (m : Msg) : Except Unit (String × Option (List Nat) × Option String) :=
  if m.mtype = some "text" then
    .ok (m.body.getD "", none, none)
  else if m.mtype = some "image" then
    match (m.image.getD ⟨none, none⟩).id with
    | some mid =>
      if mid = "" then .ok ((m.image.getD ⟨none, none⟩).caption.getD "", none, none)
      else
        match download_media ctx mid with
        | .ok bm => .ok ((m.image.getD ⟨none, none⟩).caption.getD "", some bm.1, bm.2)
        | .error e => .error e
    | none => .ok ((m.image.getD ⟨none, none⟩).caption.getD "", none, none)
  else
    .ok ("", none, none)

/-- One iteration of `for m in messages` (`src/app.py` lines 251-292): the rows
the iteration passes to `save_deal`, or the exception it raises.  Within one
message the deal values do not depend on the store, so they are collected here
and folded into the store by `webhook_receive`. -/
def processMsg (ctx : Ctx) (waName : Option String) (m : Msg) : Except Unit (List Deal) :=
  match resolveTs ctx.now m.timestamp with
  | .error e => .error e
  | .ok msgTime =>
    match msgContent ctx m with
    | .error e => .error e
    | .ok tbm =>
      .ok ((urlFindall tbm.1).map (fun u => mkDeal m.wa_from waName msgTime u tbm.2.1 tbm.2.2))

/-- A message's contribution as (deals, raised?). -/
def perMsg (ctx : Ctx) (waName : Option String) (m : Msg) : List Deal × Bool :=
  match processMsg ctx waName m with
  | .ok ds => (ds, false)
  | .error _ => ([], true)

/-- Run a list of contributions left to right, stopping at the first raised
exception (the single `try` of `webhook_receive` wraps all the loops, so an
exception aborts every remaining iteration at every level). -/
def collectList {α : Type} (f : α → List Deal × Bool) : List α → List Deal × Bool
  | [] => ([], false)
  | x :: xs =>
    let r := f x
    if r.2 then (r.1, true)
    else
      let r' := collectList f xs
      (r.1 ++ r'.1, r'.2)

/-- `wa_name` resolution (`src/app.py` lines 247-249): the profile name of the
first contact of the block, if any. -/
def contactName : List Contact → Option String
  | [] => none
  | c :: _ => c.profileName

/-- The deals attempted for one `value` block. -/
def collectValue (ctx : Ctx) (v : Value) : List Deal × Bool :=
  collectList (perMsg ctx (contactName v.contacts)) v.messages

/-- The deals attempted for one change. -/
def collectChange (ctx : Ctx) (ch : Change) : List Deal × Bool :=
  collectValue ctx ch.value

/-- The deals attempted for one entry. -/
def collectEntry (ctx : Ctx) (e : Entry) : List Deal × Bool :=
  collectList (collectChange ctx) e.changes

/-- The deals attempted for a whole payload, with the raised-exception flag of
the surrounding `try`. -/
def collectPayload (ctx : Ctx) (p : Payload) : List Deal × Bool :=
  collectList (collectEntry ctx) p.entry

/-- Embedding of `webhook_receive` (`src/app.py` lines 230-299): the attempted
deals are inserted in order; the exception, if any, is swallowed by the
catch-all `except`, and the endpoint acknowledges `("ok", 200)`
unconditionally.  Returns the new store contents and the HTTP response. -/
def webhook_receive (ctx : Ctx) (p : Payload) (db : List Deal) :
    List Deal × (String × Nat) :=
  ((collectPayload ctx p).1.foldl insertDeal db, ("ok", 200))

/-- Embedding of `webhook_verify` (`src/app.py` lines 217-227) over the three
query parameters and the configured `VERIFY_TOKEN`. -/
def webhook_verify (secret : String) (mode tok challenge : Option String) : String × Nat :=
  if mode = some "subscribe" ∧ tok = some secret then (challenge.getD "", 200)
  else ("forbidden", 403)

/-! ## Predicates used by the claim statements -/

/-- Lower-case hexadecimal digit test. -/
def isHexCh (c : Char) : Bool := "0123456789abcdef".data.contains c

/-- The fingerprint delimiter `|` does not occur in the string. -/
def noPipe (s : String) : Bool := s.data.all (fun c => c != '|')

/-- The message carries a truthy, parseable platform timestamp. -/
def tsOk (m : Msg) : Bool :=
  match m.timestamp with
  | some (TsVal.val _) => true
  | _ => false

/-- Every message of the payload carries a truthy, parseable timestamp. -/
def allTs (p : Payload) : Bool :=
  p.entry.all (fun e => e.changes.all (fun ch => ch.value.messages.all tsOk))

/-- A media network that never returns an empty content body and never returns
an explicit `null` `mime_type`. -/
def goodOracle (orc : String → FetchOutcome) : Prop :=
  ∀ mid u mr bs, orc mid = .metaOk u mr (.ok bs) → bs ≠ [] ∧ mr ≠ some none

/-- The spec §3 invariant on a Deal's media columns: `image_bytes` and
`image_mime` are both present or both absent. -/
def imgInv (d : Deal) : Bool := d.image_bytes.isSome == d.image_mime.isSome

/-! ## Concrete scenario inputs used by counterexamples and witnesses -/

/-- A network on which every metadata call fails. -/
def noNet : String → FetchOutcome := fun _ => .metaFail

/-- A network whose content call succeeds with an empty body
(an HTTP 200 with zero bytes passes `raise_for_status`). -/
def emptyMediaNet : String → FetchOutcome :=
  fun _ => .metaOk (some "https://cdn.example/f") none (.ok [])

/-- A benign network: non-empty content, explicit MIME type. -/
def goodNet : String → FetchOutcome :=
  fun _ => .metaOk (some "https://cdn.example/g") (some (some "image/jpeg")) (.ok [255, 216])

/-- The scenario payload of spec §8: one text message from Ana. -/
def anaPayload : Payload :=
  ⟨[⟨[⟨⟨[⟨some "Ana"⟩],
        [⟨some "5511999999999", some (.val 1700000000), some "text",
          some "promo top https://loja.com/p/1", none⟩]⟩⟩]⟩]⟩

/-- Claim C1 scenario: three sibling messages, the middle one an image whose
media fetch fails. -/
def c1m1 : Msg := ⟨some "111", some (.val 100), some "text", some "veja https://a.example/1", none⟩

/-- The failing image message of the C1 scenario. -/
def c1m2 : Msg :=
  ⟨some "111", some (.val 100), some "image", none,
   some ⟨some "legenda https://b.example/2", some "MEDIA1"⟩⟩

/-- The trailing sibling of the C1 scenario. -/
def c1m3 : Msg := ⟨some "111", some (.val 100), some "text", some "veja https://c.example/3", none⟩

/-- The three-message payload of the C1 scenario. -/
def c1payload : Payload := ⟨[⟨[⟨⟨[⟨some "Ana"⟩], [c1m1, c1m2, c1m3]⟩⟩]⟩]⟩

/-- Claim C2 scenario: a message carrying no timestamp at all. -/
def c2payload : Payload :=
  ⟨[⟨[⟨⟨[], [⟨none, none, some "text", some "promo https://d.example/9", none⟩]⟩⟩]⟩]⟩

/-- Claim C5 scenario: an image message whose fetched content is empty. -/
def c5payload : Payload :=
  ⟨[⟨[⟨⟨[], [⟨some "222", some (.val 50), some "image", none,
              some ⟨some "oferta https://e.example/5", some "MEDIA2"⟩⟩]⟩⟩]⟩]⟩

/-- Claim C6 scenario: an unparseable timestamp followed by a healthy sibling. -/
def c6payload : Payload :=
  ⟨[⟨[⟨⟨[], [⟨some "333", some .bad, some "text", some "x https://f.example/6", none⟩,
              ⟨some "333", some (.val 60), some "text", some "y https://g.example/7", none⟩]⟩⟩]⟩]⟩

/-- Claim C5 witness scenario: an image message against the benign network. -/
def c5goodPayload : Payload :=
  ⟨[⟨[⟨⟨[], [⟨some "444", some (.val 80), some "image", none,
              some ⟨some "oferta https://h.example/8", some "MEDIA3"⟩⟩]⟩⟩]⟩]⟩

/-! ## Validation of the embedding on known outputs

SHA-256 against FIPS/`hashlib` test vectors (one-, one-and-a-bit- and
two-block messages), the datetime rendering and the extractor against CPython,
and the end-to-end scenario of spec §8. -/

example : sha256 "" = "e3b0c44298fc1c149afbf4c8996fb92427ae41e4649b934ca495991b7852b855" := by decide
example : sha256 "abc" = "ba7816bf8f01cfea414140de5dae2223b00361a396177a9cb410ff61f20015ad" := by decide
example : sha256 (String.mk (List.replicate 70 'a')) =
    "6bd5e5034855a11241f0dee8fc72850ffd9955b28347a86428b5fa19119f6ad0" := by decide

example : datetime_str 0 = "1970-01-01 00:00:00+00:00" := by decide
example : datetime_str 1700000000 = "2023-11-14 22:13:20+00:00" := by decide
example : datetime_str 951827696 = "2000-02-29 12:34:56+00:00" := by decide

example : urlFindall "" = [] := by decide
example : urlFindall "promo top https://loja.com/p/1" = ["https://loja.com/p/1"] := by decide
example : urlFindall "a http://x.io/p b http://x.io/p (HTTPS://Y.io)" =
    ["http://x.io/p", "http://x.io/p", "HTTPS://Y.io"] := by decide
example : urlFindall "http:// nope httpx://no xhttp://yes" = ["http://yes"] := by decide
example : urlFindall "httpS://a,b;c. end" = ["httpS://a,b;c."] := by decide
example : urlFindall "http://ahttp://b http://c" = ["http://ahttp://b", "http://c"] := by decide

example :
    ((webhook_receive ⟨"tok", 42, noNet⟩ anaPayload []).1.map
      (fun d => (d.wa_name, d.url, d.image_bytes))) =
    [(some "Ana", "https://loja.com/p/1", none)] := by decide

/-! ## Digest shape: the fingerprint is a 64-character lower-case hex string -/

theorem flatMap_length_const {α β : Type} (l : List α) (f : α → List β) (k : Nat)
    (hf : ∀ a, (f a).length = k) : (l.flatMap f).length = k * l.length := by
  induction l with
  | nil => simp
  | cons a as ih => simp [List.flatMap_cons, ih, hf a, Nat.mul_succ, Nat.add_comm]

theorem flatMap_all {α β : Type} (l : List α) (f : α → List β) (p : β → Bool)
    (hf : ∀ a, (f a).all p = true) : (l.flatMap f).all p = true := by
  induction l with
  | nil => simp
  | cons a as ih => simp [List.flatMap_cons, List.all_append, ih, hf a]

theorem digestBytes_length (st : Hash8) : (digestBytes st).length = 32 := by
  simpa [digestBytes] using
    flatMap_length_const [st.h0, st.h1, st.h2, st.h3, st.h4, st.h5, st.h6, st.h7] word4 4
      (fun _ => rfl)

theorem sha256_length (s : String) : (sha256 s).length = 64 := by
  show ((digestBytes (sha256Core (utf8Bytes s))).flatMap byteHex).length = 64
  rw [flatMap_length_const _ byteHex 2 (fun _ => rfl), digestBytes_length]

theorem hexDigitCh_mem : ∀ k, k < 16 → isHexCh (hexDigitCh k) = true := by decide

theorem byteHex_all (b : Nat) : (byteHex b).all isHexCh = true := by
  have h1 := hexDigitCh_mem ((b >>> 4) % 16) (Nat.mod_lt _ (by norm_num))
  have h2 := hexDigitCh_mem (b % 16) (Nat.mod_lt _ (by norm_num))
  simp [byteHex, h1, h2]

theorem sha256_all_hex (s : String) : (sha256 s).data.all isHexCh = true := by
  show ((digestBytes (sha256Core (utf8Bytes s))).flatMap byteHex).all isHexCh = true
  exact flatMap_all _ _ _ byteHex_all

/-- C3: the fingerprint of `save_deal` is deterministic (a pure function of the
`(sender_id, sender_name, timestamp, url)` tuple), equals the SHA-256 digest of
the four rendered fields joined by `|`, and is always a 64-character
lower-case-hexadecimal string. -/
theorem claim3_fingerprint_deterministic_hex (f n : Option String) (t : Nat) (u : String) :
    dealHash f n t u = dealHash f n t u
    ∧ dealHash f n t u = sha256 (pyStr f ++ "|" ++ pyStr n ++ "|" ++ datetime_str t ++ "|" ++ u)
    ∧ (dealHash f n t u).length = 64
    ∧ (dealHash f n t u).data.all isHexCh = true :=
  ⟨rfl, rfl, sha256_length _, sha256_all_hex _⟩

/-! ## Unique splitting of the pre-hash concatenation at the `|` delimiter -/

theorem strDataEq {a b : String} (h : a.data = b.data) : a = b := by
  cases a; cases b; exact congrArg String.mk h

theorem pipe_split {a1 a2 r1 r2 : List Char}
    (h1 : a1.all (fun c => c != '|') = true) (h2 : a2.all (fun c => c != '|') = true)
    (h : a1 ++ '|' :: r1 = a2 ++ '|' :: r2) : a1 = a2 ∧ r1 = r2 := by
  induction a1 generalizing a2 with
  | nil =>
    cases a2 with
    | nil => simpa using h
    | cons b bs =>
      simp only [List.nil_append, List.cons_append, List.cons.injEq] at h
      rw [← h.1] at h2
      simp at h2
  | cons a as ih =>
    cases a2 with
    | nil =>
      simp only [List.cons_append, List.nil_append, List.cons.injEq] at h
      rw [h.1] at h1
      simp at h1
    | cons b bs =>
      simp only [List.cons_append, List.cons.injEq] at h
      simp only [List.all_cons, Bool.and_eq_true] at h1 h2
      obtain ⟨he, hr⟩ := ih h1.2 h2.2 h.2
      exact ⟨by rw [h.1, he], hr⟩

theorem hashInput_inj {a b c d a' b' c' d' : String}
    (ha : noPipe a = true) (hb : noPipe b = true) (hc : noPipe c = true)
    (ha' : noPipe a' = true) (hb' : noPipe b' = true) (hc' : noPipe c' = true)
    (h : hashInput a b c d = hashInput a' b' c' d') :
    a = a' ∧ b = b' ∧ c = c' ∧ d = d' := by
  have hd : a.data ++ '|' :: (b.data ++ '|' :: (c.data ++ '|' :: d.data))
      = a'.data ++ '|' :: (b'.data ++ '|' :: (c'.data ++ '|' :: d'.data)) := by
    have := congrArg String.data h
    simpa [hashInput, String.data_append] using this
  obtain ⟨e1, hd1⟩ := pipe_split ha ha' hd
  obtain ⟨e2, hd2⟩ := pipe_split hb hb' hd1
  obtain ⟨e3, hd3⟩ := pipe_split hc hc' hd2
  exact ⟨strDataEq e1, strDataEq e2, strDataEq e3, strDataEq hd3⟩

/-! ## Time-of-day injectivity of the datetime rendering -/

theorem digitCh_inj : ∀ a, a < 10 → ∀ b, b < 10 → digitCh a = digitCh b → a = b := by decide

theorem pad2_inj {x y : Nat} (hx : x < 100) (hy : y < 100) (h : pad2 x = pad2 y) : x = y := by
  simp only [pad2, List.cons.injEq, and_true] at h
  have e1 := digitCh_inj (x / 10) (by omega) (y / 10) (by omega) h.1
  have e2 := digitCh_inj (x % 10) (by omega) (y % 10) (by omega) h.2
  omega

theorem timeChars_inj {x y : Nat} (hx : x < 86400) (hy : y < 86400)
    (h : timeChars x = timeChars y) : x = y := by
  simp only [timeChars, pad2, List.cons_append, List.nil_append, List.cons.injEq, and_true] at h
  obtain ⟨a1, a2, -, b1, b2, -, c1, c2⟩ := h
  have e1 := digitCh_inj _ (by omega) _ (by omega) a1
  have e2 := digitCh_inj _ (by omega) _ (by omega) a2
  have e3 := digitCh_inj _ (by omega) _ (by omega) b1
  have e4 := digitCh_inj _ (by omega) _ (by omega) b2
  have e5 := digitCh_inj _ (by omega) _ (by omega) c1
  have e6 := digitCh_inj _ (by omega) _ (by omega) c2
  omega

theorem datetime_str_sod {t1 t2 : Nat} (h : datetime_str t1 = datetime_str t2) :
    t1 % 86400 = t2 % 86400 := by
  have hd : dateChars (t1 / 86400) ++ ' ' :: (timeChars (t1 % 86400) ++ tzChars)
      = dateChars (t2 / 86400) ++ ' ' :: (timeChars (t2 % 86400) ++ tzChars) :=
    congrArg String.data h
  have hlen : (' ' :: (timeChars (t1 % 86400) ++ tzChars)).length
      = (' ' :: (timeChars (t2 % 86400) ++ tzChars)).length := by
    simp [timeChars, tzChars, pad2]
  obtain ⟨-, h2⟩ := List.append_inj' hd hlen
  simp only [List.cons.injEq, true_and] at h2
  have hlen' : (timeChars (t1 % 86400)).length = (timeChars (t2 % 86400)).length := by
    simp [timeChars, pad2]
  obtain ⟨h3, -⟩ := List.append_inj h2 hlen'
  exact timeChars_inj (Nat.mod_lt _ (by norm_num)) (Nat.mod_lt _ (by norm_num)) h3

theorem digitCh_ne_pipe (k : Nat) : (digitCh k != '|') = true := by
  have e : digitCh k = digitCh (k % 10) := by
    have : k % 10 % 10 = k % 10 := by omega
    simp [digitCh, this]
  have h : ∀ j, j < 10 → (digitCh j != '|') = true := by decide
  rw [e]
  exact h _ (Nat.mod_lt _ (by norm_num))

theorem natChars_ne_pipe : ∀ fuel n, (natChars fuel n).all (fun c => c != '|') = true := by
  intro fuel
  induction fuel with
  | zero => intro n; simp [natChars, digitCh_ne_pipe]
  | succ f ih =>
    intro n
    simp only [natChars]
    split
    · simp [digitCh_ne_pipe]
    · simp [List.all_append, ih, digitCh_ne_pipe]

theorem pad4_ne_pipe (n : Nat) : (pad4 n).all (fun c => c != '|') = true := by
  simp only [pad4, List.all_append, Bool.and_eq_true]
  constructor
  · simp only [List.all_eq_true]
    intro c hc
    rw [List.eq_of_mem_replicate hc]
    decide
  · exact natChars_ne_pipe _ _

theorem noPipe_datetime (t : Nat) : noPipe (datetime_str t) = true := by
  show (dateChars (t / 86400) ++ ' ' :: (timeChars (t % 86400) ++ tzChars)).all
    (fun c => c != '|') = true
  simp [dateChars, timeChars, tzChars, pad2, List.all_append, digitCh_ne_pipe, pad4_ne_pipe]

/-- C4 (amended): the claim holds once no field contains the delimiter `|`
itself: for any two tuples of rendered fields that are `|`-free and differ in
at least one component, the pre-hash concatenations — and hence, treating
SHA-256 as collision-free as the claim does, the fingerprints — differ.  The
rendered timestamp is always `|`-free, and a one-second timestamp shift always
changes the rendered timestamp (so it always changes the fingerprint input). -/
theorem claim4_amended :
    (∀ s1 n1 t1 u1 s2 n2 t2 u2 : String,
      noPipe s1 = true → noPipe n1 = true → noPipe t1 = true →
      noPipe s2 = true → noPipe n2 = true → noPipe t2 = true →
      ¬(s1 = s2 ∧ n1 = n2 ∧ t1 = t2 ∧ u1 = u2) →
      hashInput s1 n1 t1 u1 ≠ hashInput s2 n2 t2 u2)
    ∧ (∀ t : Nat, noPipe (datetime_str t) = true)
    ∧ (∀ t : Nat, datetime_str (t + 1) ≠ datetime_str t) := by
  refine ⟨?_, noPipe_datetime, ?_⟩
  · intro s1 n1 t1 u1 s2 n2 t2 u2 hs1 hn1 ht1 hs2 hn2 ht2 hne h
    exact hne (hashInput_inj hs1 hn1 ht1 hs2 hn2 ht2 h)
  · intro t h
    have := datetime_str_sod h
    omega

/-- Witness for C4 (amended) at concrete inputs. -/
theorem claim4_witness :
    hashInput "5511" "Ana" "1970-01-01 00:00:02+00:00" "http://u"
      ≠ hashInput "5511" "Ana" "1970-01-01 00:00:01+00:00" "http://u"
    ∧ noPipe (datetime_str 7) = true
    ∧ datetime_str 2 ≠ datetime_str 1 :=
  ⟨claim4_amended.1 _ _ _ _ _ _ _ _ (by decide) (by decide) (by decide) (by decide) (by decide)
      (by decide) (by decide),
   claim4_amended.2.1 7,
   claim4_amended.2.2 1⟩

/-- Counterexample to C4 as stated: two tuples that differ in both sender
fields but whose fingerprints (already at the pre-hash concatenation, hence
under any hash) coincide, because one field contains the delimiter `|`. -/
theorem claim4_counterexample :
    dealHash (some "a") (some "b|c") 0 "http://u" = dealHash (some "a|b") (some "c") 0 "http://u"
    ∧ (some "a" : Option String) ≠ some "a|b"
    ∧ (some "b|c" : Option String) ≠ some "c"
    ∧ hashInput "a" "b|c" (datetime_str 0) "http://u"
        = hashInput "a|b" "c" (datetime_str 0) "http://u" :=
  ⟨by decide, by decide, by decide, by decide⟩

/-! ## Store lemmas: `ON CONFLICT DO NOTHING` makes re-insertion a no-op -/

theorem insertDeal_of_any (db : List Deal) (d : Deal)
    (h : db.any (fun x => x.url_hash == d.url_hash) = true) : insertDeal db d = db := by
  simp [insertDeal, h]

theorem any_insertDeal (db : List Deal) (d e : Deal)
    (h : db.any (fun x => x.url_hash == e.url_hash) = true) :
    (insertDeal db d).any (fun x => x.url_hash == e.url_hash) = true := by
  unfold insertDeal
  split
  · exact h
  · simp [List.any_append, h]

theorem any_foldl_insert (db : List Deal) (ds : List Deal) (e : Deal)
    (h : db.any (fun x => x.url_hash == e.url_hash) = true) :
    (ds.foldl insertDeal db).any (fun x => x.url_hash == e.url_hash) = true := by
  induction ds generalizing db with
  | nil => exact h
  | cons a as ih => exact ih (insertDeal db a) (any_insertDeal db a e h)

theorem any_insertDeal_self (db : List Deal) (d : Deal) :
    (insertDeal db d).any (fun x => x.url_hash == d.url_hash) = true := by
  unfold insertDeal
  split
  · assumption
  · simp [List.any_append]

theorem mem_any_foldl_insert (db : List Deal) (ds : List Deal) (d : Deal) (hd : d ∈ ds) :
    ((ds.foldl insertDeal db).any (fun x => x.url_hash == d.url_hash)) = true := by
  induction ds generalizing db with
  | nil => cases hd
  | cons a as ih =>
    rcases List.mem_cons.mp hd with h | h
    · subst h
      exact any_foldl_insert (insertDeal db d) as d (any_insertDeal_self db d)
    · exact ih (insertDeal db a) h

theorem collectList_indep {α : Type} (f g : α → List Deal × Bool) (xs : List α)
    (h : ∀ x ∈ xs, f x = g x) : collectList f xs = collectList g xs := by
  induction xs with
  | nil => rfl
  | cons a as ih =>
    simp only [collectList, h a (List.mem_cons_self a as),
      ih (fun x hx => h x (List.mem_cons_of_mem a hx))]

theorem foldl_insert_absorb (db : List Deal) (ds : List Deal)
    (h : ∀ d ∈ ds, db.any (fun x => x.url_hash == d.url_hash) = true) :
    ds.foldl insertDeal db = db := by
  induction ds with
  | nil => rfl
  | cons a as ih =>
    have ha := insertDeal_of_any db a (h a (List.mem_cons_self a as))
    simp only [List.foldl_cons, ha]
    exact ih (fun d hd => h d (List.mem_cons_of_mem a hd))

theorem foldl_insert_idem (db : List Deal) (ds : List Deal) :
    ds.foldl insertDeal (ds.foldl insertDeal db) = ds.foldl insertDeal db :=
  foldl_insert_absorb _ _ (fun d hd => mem_any_foldl_insert db ds d hd)

theorem mem_insertDeal {db : List Deal} {x d : Deal} (h : d ∈ insertDeal db x) :
    d ∈ db ∨ d = x := by
  unfold insertDeal at h
  split at h
  · exact Or.inl h
  · simpa using h

theorem mem_foldl_insert {db : List Deal} {ds : List Deal} {d : Deal}
    (h : d ∈ ds.foldl insertDeal db) : d ∈ db ∨ d ∈ ds := by
  induction ds generalizing db with
  | nil => exact Or.inl h
  | cons a as ih =>
    rcases ih h with h' | h'
    · rcases mem_insertDeal h' with h'' | h''
      · exact Or.inl h''
      · exact Or.inr (by simp [h''])
    · exact Or.inr (List.mem_cons_of_mem a h')

/-! ## Collect lemmas: early exit of the shared `try` block -/

theorem collectList_single {α : Type} (f : α → List Deal × Bool) (x : α) :
    collectList f [x] = ((f x).1, (f x).2) := by
  cases hb : (f x).2 with
  | false => simp [collectList, hb]
  | true => simp [collectList, hb]

theorem collectList_append_stop {α : Type} (f : α → List Deal × Bool)
    (pre : List α) (x : α) (post : List α) (ds : List Deal)
    (h1 : collectList f pre = (ds, false)) (h2 : (f x).2 = true) :
    collectList f (pre ++ x :: post) = (ds ++ (f x).1, true) := by
  induction pre generalizing ds with
  | nil =>
    simp only [collectList] at h1
    injection h1 with h1a h1b
    subst h1a
    simp only [List.nil_append]
    simp [collectList, h2]
  | cons a as ih =>
    cases hfa : (f a).2 with
    | true =>
      exfalso
      simp only [collectList, hfa, if_pos] at h1
      exact absurd (congrArg Prod.snd h1) (by simp)
    | false =>
      simp only [collectList, hfa, Bool.false_eq_true, if_false] at h1
      injection h1 with hfst hsnd
      have hcas : collectList f as = ((collectList f as).1, false) := by
        rw [← hsnd]
      have ihh := ih (collectList f as).1 hcas
      rw [List.cons_append]
      simp only [collectList, hfa, Bool.false_eq_true, if_false, ihh]
      simp [← hfst, List.append_assoc]

/-! ## When every message has a platform timestamp, processing does not read
the wall clock -/

theorem tsOk_val {m : Msg} (h : tsOk m = true) : ∃ k, m.timestamp = some (TsVal.val k) := by
  rcases hts : m.timestamp with _ | tv
  · simp [tsOk, hts] at h
  · cases tv with
    | empty => simp [tsOk, hts] at h
    | bad => simp [tsOk, hts] at h
    | val k => exact ⟨k, rfl⟩

theorem msgContent_now (tok : String) (orc : String → FetchOutcome) (n n' : Nat) (m : Msg) :
    msgContent ⟨tok, n, orc⟩ m = msgContent ⟨tok, n', orc⟩ m := rfl

theorem processMsg_now (tok : String) (orc : String → FetchOutcome) (n n' : Nat)
    (nm : Option String) (m : Msg) (h : tsOk m = true) :
    processMsg ⟨tok, n, orc⟩ nm m = processMsg ⟨tok, n', orc⟩ nm m := by
  obtain ⟨k, hk⟩ := tsOk_val h
  simp only [processMsg, hk, resolveTs]
  rw [msgContent_now tok orc n n' m]

theorem perMsg_now (tok : String) (orc : String → FetchOutcome) (n n' : Nat)
    (nm : Option String) (m : Msg) (h : tsOk m = true) :
    perMsg ⟨tok, n, orc⟩ nm m = perMsg ⟨tok, n', orc⟩ nm m := by
  unfold perMsg
  rw [processMsg_now tok orc n n' nm m h]

theorem collectValue_now (tok : String) (orc : String → FetchOutcome) (n n' : Nat) (v : Value)
    (h : v.messages.all tsOk = true) :
    collectValue ⟨tok, n, orc⟩ v = collectValue ⟨tok, n', orc⟩ v := by
  unfold collectValue
  exact collectList_indep _ _ _
    (fun m hm => perMsg_now tok orc n n' _ m (List.all_eq_true.mp h m hm))

theorem collectEntry_now (tok : String) (orc : String → FetchOutcome) (n n' : Nat) (e : Entry)
    (h : e.changes.all (fun ch => ch.value.messages.all tsOk) = true) :
    collectEntry ⟨tok, n, orc⟩ e = collectEntry ⟨tok, n', orc⟩ e := by
  unfold collectEntry
  exact collectList_indep _ _ _
    (fun ch hch => collectValue_now tok orc n n' _ (List.all_eq_true.mp h ch hch))

theorem collectPayload_now (tok : String) (orc : String → FetchOutcome) (n n' : Nat)
    (p : Payload) (h : allTs p = true) :
    collectPayload ⟨tok, n, orc⟩ p = collectPayload ⟨tok, n', orc⟩ p := by
  unfold collectPayload
  exact collectList_indep _ _ _
    (fun e he => collectEntry_now tok orc n n' _ (List.all_eq_true.mp h e he))

theorem replay_absorb (tok : String) (orc : String → FetchOutcome) (now1 now2 : Nat)
    (p : Payload) (db : List Deal) (h : allTs p = true) :
    (webhook_receive ⟨tok, now2, orc⟩ p (webhook_receive ⟨tok, now1, orc⟩ p db).1).1
      = (webhook_receive ⟨tok, now1, orc⟩ p db).1 := by
  show (collectPayload ⟨tok, now2, orc⟩ p).1.foldl insertDeal
      ((collectPayload ⟨tok, now1, orc⟩ p).1.foldl insertDeal db)
    = (collectPayload ⟨tok, now1, orc⟩ p).1.foldl insertDeal db
  rw [collectPayload_now tok orc now2 now1 p h]
  exact foldl_insert_idem db _

/-- C2 (amended): when every message of the payload carries a truthy,
parseable platform timestamp, replaying the identical payload any number of
further times — at arbitrary later wall-clock instants, over the same network
behaviour — leaves the set of persisted Deals exactly as after the first
processing, and every delivery is acknowledged with `("ok", 200)`. -/
theorem claim2_amended (tok : String) (orc : String → FetchOutcome) (now0 : Nat)
    (nows : List Nat) (p : Payload) (db : List Deal) (h : allTs p = true) :
    nows.foldl (fun d nw => (webhook_receive ⟨tok, nw, orc⟩ p d).1)
        ((webhook_receive ⟨tok, now0, orc⟩ p db).1)
      = (webhook_receive ⟨tok, now0, orc⟩ p db).1
    ∧ (webhook_receive ⟨tok, now0, orc⟩ p db).2 = ("ok", 200) := by
  refine ⟨?_, rfl⟩
  induction nows with
  | nil => rfl
  | cons nw nws ih =>
    simp only [List.foldl_cons]
    rw [replay_absorb tok orc now0 nw p db h]
    exact ih

/-- Witness for C2 (amended): the three-message payload replayed twice more at
later instants. -/
theorem claim2_witness :
    [55, 66].foldl (fun d nw => (webhook_receive ⟨"tok", nw, noNet⟩ c1payload d).1)
        ((webhook_receive ⟨"tok", 44, noNet⟩ c1payload []).1)
      = (webhook_receive ⟨"tok", 44, noNet⟩ c1payload []).1
    ∧ (webhook_receive ⟨"tok", 44, noNet⟩ c1payload []).2 = ("ok", 200) :=
  claim2_amended "tok" noNet 44 [55, 66] c1payload [] (by decide)

/-- Counterexample to C2 as stated: a payload whose message carries no
timestamp falls back to the wall clock, so replaying the identical payload one
second later creates a second, duplicate Deal for the same link. -/
theorem claim2_counterexample :
    ((webhook_receive ⟨"", 1, noNet⟩ c2payload
        ((webhook_receive ⟨"", 0, noNet⟩ c2payload []).1)).1).length = 2
    ∧ ((webhook_receive ⟨"", 0, noNet⟩ c2payload []).1).length = 1 :=
  ⟨by decide, by decide⟩

/-! ## C1: a media-fetch failure aborts the remaining siblings -/

/-- C1 (amended): when the media fetch of one image message raises, the deals
of the messages *preceding* it in the payload are still persisted and the
delivery is still acknowledged with `("ok", 200)`, but the failing message and
every later sibling in the same payload contribute nothing. -/
theorem claim1_amended (ctx : Ctx) (cs : List Contact) (pre : List Msg) (bad : Msg)
    (post : List Msg) (ds : List Deal) (db : List Deal)
    (h1 : collectList (perMsg ctx (contactName cs)) pre = (ds, false))
    (h2 : processMsg ctx (contactName cs) bad = .error ()) :
    webhook_receive ctx ⟨[⟨[⟨⟨cs, pre ++ bad :: post⟩⟩]⟩]⟩ db
      = (ds.foldl insertDeal db, ("ok", 200)) := by
  have hbad : perMsg ctx (contactName cs) bad = ([], true) := by
    simp [perMsg, h2]
  have hmsgs : collectList (perMsg ctx (contactName cs)) (pre ++ bad :: post) = (ds, true) := by
    have hstop := collectList_append_stop (perMsg ctx (contactName cs)) pre bad post ds h1
      (by rw [hbad])
    simpa [hbad] using hstop
  have hpl : collectPayload ctx ⟨[⟨[⟨⟨cs, pre ++ bad :: post⟩⟩]⟩]⟩ = (ds, true) := by
    simp [collectPayload, collectEntry, collectChange, collectValue, collectList_single, hmsgs]
  rw [webhook_receive, hpl]

/-- Witness for C1 (amended) on the three-message scenario. -/
theorem claim1_witness :
    webhook_receive ⟨"tok", 42, noNet⟩ c1payload []
      = ((collectList (perMsg ⟨"tok", 42, noNet⟩ (contactName [⟨some "Ana"⟩])) [c1m1]).1.foldl
          insertDeal [], ("ok", 200)) :=
  claim1_amended ⟨"tok", 42, noNet⟩ [⟨some "Ana"⟩] [c1m1] c1m2 [c1m3]
    (collectList (perMsg ⟨"tok", 42, noNet⟩ (contactName [⟨some "Ana"⟩])) [c1m1]).1 []
    (by decide) (by rfl)

/-- Counterexample to C1 as stated: in the three-message payload whose middle
image message fails its media fetch, only the *first* sibling's link is
persisted — the third message's link `https://c.example/3` is dropped even
though the claim requires it to be persisted. -/
theorem claim1_counterexample :
    ((webhook_receive ⟨"tok", 42, noNet⟩ c1payload []).1.map Deal.url)
      = ["https://a.example/1"] := by decide

/-! ## C6: timestamp resolution -/

/-- C6 (amended): the resolved timestamp is the converted epoch value when the
platform field is truthy and parseable, and falls back to the current time
when the field is absent or falsy; but a truthy *unparseable* value raises
`ValueError` inside the shared `try`, so it aborts that message and all of its
remaining siblings instead of defaulting (the delivery is still acknowledged,
and `webhook_receive` still returns 200 on such payloads). -/
theorem claim6_amended :
    (∀ nw : Nat, resolveTs nw none = .ok nw)
    ∧ (∀ nw : Nat, resolveTs nw (some TsVal.empty) = .ok nw)
    ∧ (∀ nw n : Nat, resolveTs nw (some (TsVal.val n)) = .ok n)
    ∧ (∀ (ctx : Ctx) (nm : Option String) (m : Msg), m.timestamp = some TsVal.bad →
        processMsg ctx nm m = .error ())
    ∧ (∀ (ctx : Ctx) (nm : Option String) (m : Msg) (post : List Msg),
        m.timestamp = some TsVal.bad →
        collectList (perMsg ctx nm) (m :: post) = ([], true)) := by
  refine ⟨fun _ => rfl, fun _ => rfl, fun _ _ => rfl, ?_, ?_⟩
  · intro ctx nm m hm
    simp [processMsg, hm, resolveTs]
  · intro ctx nm m post hm
    have hp : perMsg ctx nm m = ([], true) := by
      simp [perMsg, processMsg, hm, resolveTs]
    simp [collectList, hp]

/-- Witness for C6 (amended) at a concrete bad-timestamp message. -/
theorem claim6_witness :
    processMsg ⟨"tok", 9, noNet⟩ none ⟨some "333", some TsVal.bad, some "text",
        some "x https://f.example/6", none⟩ = .error ()
    ∧ collectList (perMsg ⟨"tok", 9, noNet⟩ none)
        [⟨some "333", some TsVal.bad, some "text", some "x https://f.example/6", none⟩,
         ⟨some "333", some (TsVal.val 60), some "text", some "y https://g.example/7", none⟩]
      = ([], true) :=
  ⟨claim6_amended.2.2.2.1 _ none _ rfl, claim6_amended.2.2.2.2 _ none _ _ rfl⟩

/-- Counterexample to C6 as stated: a payload whose first message has a truthy
unparseable timestamp persists *nothing* — neither a now-defaulted Deal for
that message nor the Deal of its healthy sibling — contradicting
"defaults to the current time ... without failing the message or its
siblings". -/
theorem claim6_counterexample :
    (webhook_receive ⟨"tok", 42, noNet⟩ c6payload []).1 = [] := by decide

/-! ## C8: the webhook endpoint always acknowledges success -/

/-- C8: for every payload, wall clock, credential configuration, network
behaviour and store state, `webhook_receive` responds `("ok", 200)`; every
downstream failure is swallowed by the catch-all `except`.  (Syntactically
invalid JSON additionally degrades to the empty payload via
`get_json(force=True, silent=True) or {}` before this function's loops.) -/
theorem claim8_always_ack (ctx : Ctx) (p : Payload) (db : List Deal) :
    (webhook_receive ctx p db).2 = ("ok", 200) := rfl

/-! ## C9: the verification endpoint -/

/-- C9: a GET with `hub.mode = "subscribe"` and the configured secret as
`hub.verify_token` echoes `hub.challenge` with status 200 (the empty string
when the challenge parameter is absent); any other combination yields 403. -/
theorem claim9_verify (secret : String) (mode tok ch : Option String) :
    (mode = some "subscribe" → tok = some secret →
      webhook_verify secret mode tok ch = (ch.getD "", 200))
    ∧ (¬(mode = some "subscribe" ∧ tok = some secret) →
      webhook_verify secret mode tok ch = ("forbidden", 403)) := by
  constructor
  · intro h1 h2
    simp [webhook_verify, h1, h2]
  · intro h
    simp only [webhook_verify, if_neg h]

/-- Witness for C9 at concrete parameters. -/
theorem claim9_witness :
    webhook_verify "sec" (some "subscribe") (some "sec") (some "chal") = ("chal", 200)
    ∧ webhook_verify "sec" (some "subscribe") (some "wrong") (some "chal")
      = ("forbidden", 403) :=
  ⟨(claim9_verify "sec" (some "subscribe") (some "sec") (some "chal")).1 rfl rfl,
   (claim9_verify "sec" (some "subscribe") (some "wrong") (some "chal")).2 (by simp)⟩

/-! ## C10: absent sender fields are rendered as the string `"None"` -/

/-- C10: an event with an absent `sender_id` (or `sender_name`) produces
exactly the fingerprint of an event whose field is the literal string
`"None"`, because the f-string renders `None` as `"None"`; and inserting a
deal whose fingerprint is already present is a silent no-op, so such pairs are
deduplicated as if identical. -/
theorem claim10_none_rendering :
    (∀ (nm : Option String) (t : Nat) (u : String),
      dealHash none nm t u = dealHash (some "None") nm t u)
    ∧ (∀ (sf : Option String) (t : Nat) (u : String),
      dealHash sf none t u = dealHash sf (some "None") t u)
    ∧ (∀ (db : List Deal) (d : Deal),
      db.any (fun x => x.url_hash == d.url_hash) = true → insertDeal db d = db) :=
  ⟨fun _ _ _ => rfl, fun _ _ _ => rfl, fun db d h => insertDeal_of_any db d h⟩

/-- Witness for C10: the deal of an absent-sender event blocks the insertion
of the deal of a literal-`"None"`-sender event with the same timestamp and
URL. -/
theorem claim10_witness :
    insertDeal [mkDeal none none 0 "http://x" none none]
        (mkDeal (some "None") (some "None") 0 "http://x" none none)
      = [mkDeal none none 0 "http://x" none none] :=
  claim10_none_rendering.2.2 [mkDeal none none 0 "http://x" none none]
    (mkDeal (some "None") (some "None") 0 "http://x" none none) (by decide)

/-! ## C5: the media-column invariant -/

theorem download_good {ctx : Ctx} (ho : goodOracle ctx.oracle) {mid : String}
    {bs : List Nat} {mm : Option String} (h : download_media ctx mid = .ok (bs, mm)) :
    bs ≠ [] ∧ mm.isSome = true := by
  unfold download_media at h
  split at h
  · simp at h
  · split at h
    · simp at h
    · next u mr content hoc =>
      split at h
      · simp at h
      · next u' =>
        split at h
        · simp at h
        · split at h
          · next e => simp at h
          · next bs' =>
            simp only [Except.ok.injEq, Prod.mk.injEq] at h
            obtain ⟨hbs, hmm⟩ := h
            obtain ⟨hne, hmr⟩ := ho mid (some u') mr bs' hoc
            constructor
            · rw [← hbs]; exact hne
            · cases mr with
              | none => simp [← hmm]
              | some v =>
                simp only at hmm
                cases v with
                | none => exact absurd rfl hmr
                | some str => simp [← hmm]

theorem msgContent_img {ctx : Ctx} {m : Msg} {text : String} {ib : Option (List Nat)}
    {im : Option String} (h : msgContent ctx m = .ok (text, ib, im)) :
    (ib = none ∧ im = none)
    ∨ ∃ mid bs mm, download_media ctx mid = .ok (bs, mm) ∧ ib = some bs ∧ im = mm := by
  unfold msgContent at h
  split at h
  · simp only [Except.ok.injEq, Prod.mk.injEq] at h
    exact Or.inl ⟨h.2.1.symm, h.2.2.symm⟩
  · split at h
    · split at h
      · next mid hmideq =>
        split at h
        · simp only [Except.ok.injEq, Prod.mk.injEq] at h
          exact Or.inl ⟨h.2.1.symm, h.2.2.symm⟩
        · split at h
          · next bm hdl =>
            simp only [Except.ok.injEq, Prod.mk.injEq] at h
            exact Or.inr ⟨mid, bm.1, bm.2, hdl, h.2.1.symm, h.2.2.symm⟩
          · simp at h
      · simp only [Except.ok.injEq, Prod.mk.injEq] at h
        exact Or.inl ⟨h.2.1.symm, h.2.2.symm⟩
    · simp only [Except.ok.injEq, Prod.mk.injEq] at h
      exact Or.inl ⟨h.2.1.symm, h.2.2.symm⟩

theorem processMsg_deal_img {ctx : Ctx} {nm : Option String} {m : Msg} {ds : List Deal}
    (h : processMsg ctx nm m = .ok ds) {d : Deal} (hd : d ∈ ds) :
    (d.image_bytes = none ∧ d.image_mime = none)
    ∨ ∃ mid bs mm, download_media ctx mid = .ok (bs, mm)
        ∧ d.image_bytes = (if bs.isEmpty then none else some bs) ∧ d.image_mime = mm := by
  unfold processMsg at h
  cases hts : resolveTs ctx.now m.timestamp with
  | error e => rw [hts] at h; simp at h
  | ok t =>
    rw [hts] at h
    cases hmc : msgContent ctx m with
    | error e => rw [hmc] at h; simp at h
    | ok tbm =>
      rw [hmc] at h
      simp only [Except.ok.injEq] at h
      subst h
      obtain ⟨u, -, rfl⟩ := List.mem_map.mp hd
      rcases msgContent_img hmc with ⟨h1, h2⟩ | ⟨mid, bs, mm, hdl, hib, him⟩
      · exact Or.inl (by simp [mkDeal, h1, h2])
      · exact Or.inr ⟨mid, bs, mm, hdl, by simp [mkDeal, hib, him]⟩

theorem mem_collectList {α : Type} {f : α → List Deal × Bool} {xs : List α} {d : Deal}
    (h : d ∈ (collectList f xs).1) : ∃ x ∈ xs, d ∈ (f x).1 := by
  induction xs with
  | nil => simp [collectList] at h
  | cons a as ih =>
    cases hb : (f a).2 with
    | true =>
      simp only [collectList, hb, if_pos] at h
      exact ⟨a, List.mem_cons_self a as, h⟩
    | false =>
      simp only [collectList, hb, Bool.false_eq_true, if_false] at h
      rcases List.mem_append.mp h with h' | h'
      · exact ⟨a, List.mem_cons_self a as, h'⟩
      · obtain ⟨x, hx, hdx⟩ := ih h'
        exact ⟨x, List.mem_cons_of_mem a hx, hdx⟩

theorem mem_collectPayload {ctx : Ctx} {p : Payload} {d : Deal}
    (h : d ∈ (collectPayload ctx p).1) :
    ∃ ch : Change, ∃ m ∈ ch.value.messages, ∃ ds,
      processMsg ctx (contactName ch.value.contacts) m = .ok ds ∧ d ∈ ds := by
  unfold collectPayload at h
  obtain ⟨e, -, h1⟩ := mem_collectList h
  unfold collectEntry at h1
  obtain ⟨ch, -, h2⟩ := mem_collectList h1
  unfold collectChange collectValue at h2
  obtain ⟨m, hm, h3⟩ := mem_collectList h2
  cases hpm : processMsg ctx (contactName ch.value.contacts) m with
  | error e' => simp [perMsg, hpm] at h3
  | ok ds => exact ⟨ch, m, hm, ds, hpm, by simpa [perMsg, hpm] using h3⟩

/-- C5 (amended): the both-present-or-both-absent invariant on
`image_bytes`/`image_mime` holds for every Deal the webhook persists,
*provided* the media API never returns an empty content body and never returns
an explicit JSON-`null` `mime_type`.  (Outside that proviso the code breaks
the invariant: an empty body is stored as `NULL` bytes next to a non-`NULL`
MIME type — see the counterexample — and a `null` `mime_type` is stored as
`NULL` next to non-`NULL` bytes.) -/
theorem claim5_amended (ctx : Ctx) (p : Payload) (db : List Deal)
    (ho : goodOracle ctx.oracle) (hdb : db.all imgInv = true) :
    ((webhook_receive ctx p db).1.all imgInv) = true := by
  rw [List.all_eq_true]
  intro d hd
  simp only [webhook_receive] at hd
  rcases mem_foldl_insert hd with hmem | hmem
  · exact List.all_eq_true.mp hdb d hmem
  · obtain ⟨ch, m, -, ds, hpm, hds⟩ := mem_collectPayload hmem
    rcases processMsg_deal_img hpm hds with ⟨h1, h2⟩ | ⟨mid, bs, mm, hdl, hib, him⟩
    · simp [imgInv, h1, h2]
    · obtain ⟨hbs, hmm⟩ := download_good ho hdl
      have hbe : bs.isEmpty = false := by
        cases hbe : bs.isEmpty
        · rfl
        · exact absurd (List.isEmpty_iff.mp hbe) hbs
      simp [imgInv, hib, him, hbe, hmm]

theorem goodNet_good : goodOracle goodNet := by
  intro mid u mr bs h
  simp only [goodNet, FetchOutcome.metaOk.injEq] at h
  obtain ⟨-, hmr, hc⟩ := h
  injection hc with hbs
  constructor
  · rw [← hbs]; decide
  · rw [← hmr]; decide

/-- Witness for C5 (amended): an image message fetched over the benign
network produces a store in which every Deal satisfies the invariant. -/
theorem claim5_witness :
    ((webhook_receive ⟨"tok", 7, goodNet⟩ c5goodPayload []).1.all imgInv) = true :=
  claim5_amended ⟨"tok", 7, goodNet⟩ c5goodPayload [] goodNet_good (by decide)

/-- Counterexample to C5 as stated: when the fetched content body is empty,
the persisted Deal has `image_bytes = NULL` but
`image_mime = "application/octet-stream"` — exactly one of the two set. -/
theorem claim5_counterexample :
    ((webhook_receive ⟨"tok", 7, emptyMediaNet⟩ c5payload []).1.map
      (fun d => (d.image_bytes, d.image_mime)))
    = [(none, some "application/octet-stream")] := by decide

/-! ## C7: every extracted substring is URL-shaped -/

theorem isTermChar_cases {c : Char} (hc : isTermChar c = true) :
    c = ' ' ∨ c = Char.ofNat 9 ∨ c = Char.ofNat 10 ∨ c = Char.ofNat 13 ∨ c = Char.ofNat 11 ∨
    c = Char.ofNat 12 ∨ c = '<' ∨ c = '>' ∨ c = '(' ∨ c = ')' ∨ c = Char.ofNat 34 ∨
    c = Char.ofNat 39 := by
  simpa [isTermChar, or_assoc] using hc

theorem not_term_of_scheme_lower {c : Char}
    (h : c.toLower = 'h' ∨ c.toLower = 't' ∨ c.toLower = 'p' ∨ c.toLower = 's') :
    (!isTermChar c) = true := by
  cases hterm : isTermChar c
  · rfl
  · exfalso
    rcases isTermChar_cases hterm with h'|h'|h'|h'|h'|h'|h'|h'|h'|h'|h'|h' <;> subst h' <;>
      rcases h with h|h|h|h <;> revert h <;> decide

theorem afterColon_shape {l : List Char} {t r : List Char} (h : afterColon l = some (t, r)) :
    ∃ body, t = ':' :: '/' :: '/' :: body ∧ body ≠ []
      ∧ body.all (fun c => !isTermChar c) = true := by
  unfold afterColon at h
  split at h
  · next ca cb cc r2 =>
    split at h
    · next hg =>
      split at h
      · simp at h
      · next hbody =>
        simp only [Option.some.injEq, Prod.mk.injEq] at h
        simp only [Bool.and_eq_true, beq_iff_eq] at hg
        obtain ⟨⟨hca, hcb⟩, hcc⟩ := hg
        subst hca; subst hcb; subst hcc
        refine ⟨r2.takeWhile (fun c => !isTermChar c), h.1.symm, ?_, ?_⟩
        · intro hnil
          rw [List.isEmpty_iff] at hbody
          exact hbody hnil
        · rw [List.all_eq_true]
          intro c hcmem
          exact List.mem_takeWhile_imp (p := fun c => !isTermChar c) hcmem
    · simp at h
  · simp at h

theorem afterScheme_shape {l : List Char} {t r : List Char} (h : afterScheme l = some (t, r)) :
    (∃ body, t = ':' :: '/' :: '/' :: body ∧ body ≠ []
        ∧ body.all (fun c => !isTermChar c) = true)
    ∨ (∃ c5 body, c5.toLower = 's' ∧ t = c5 :: ':' :: '/' :: '/' :: body ∧ body ≠ []
        ∧ body.all (fun c => !isTermChar c) = true) := by
  unfold afterScheme at h
  split at h
  · next c5 rest =>
    split at h
    · next hs =>
      rw [Option.map_eq_some'] at h
      obtain ⟨⟨q1, q2⟩, hq, heq⟩ := h
      obtain ⟨body, hb1, hb2, hb3⟩ := afterColon_shape hq
      simp only [Prod.mk.injEq] at heq
      exact Or.inr ⟨c5, body, by simpa using hs, by rw [← heq.1, hb1], hb2, hb3⟩
    · exact Or.inl (afterColon_shape h)
  · simp at h

theorem urlShapedB_http (c1 c2 c3 c4 : Char) (body : List Char)
    (hc1 : c1.toLower = 'h') (hc2 : c2.toLower = 't') (hc3 : c3.toLower = 't')
    (hc4 : c4.toLower = 'p') (hb2 : body ≠ [])
    (hb3 : body.all (fun c => !isTermChar c) = true) :
    urlShapedB (c1 :: c2 :: c3 :: c4 :: ':' :: '/' :: '/' :: body) = true := by
  unfold urlShapedB
  have hmap : (c1 :: c2 :: c3 :: c4 :: ':' :: '/' :: '/' :: body).map Char.toLower
      = 'h' :: 't' :: 't' :: 'p' :: ':' :: '/' :: '/' :: body.map Char.toLower := by
    simp [hc1, hc2, hc3, hc4]
  have htake : (((c1 :: c2 :: c3 :: c4 :: ':' :: '/' :: '/' :: body).map Char.toLower).take 7
      == "http://".data) = true := by
    rw [hmap]
    rfl
  have hdec : decide (8 ≤ (c1 :: c2 :: c3 :: c4 :: ':' :: '/' :: '/' :: body).length) = true := by
    simp only [decide_eq_true_eq, List.length_cons]
    have := List.length_pos.mpr hb2
    omega
  have hall : (c1 :: c2 :: c3 :: c4 :: ':' :: '/' :: '/' :: body).all
      (fun c => !isTermChar c) = true := by
    simp only [List.all_cons, Bool.and_eq_true]
    refine ⟨not_term_of_scheme_lower (Or.inl hc1),
      not_term_of_scheme_lower (Or.inr (Or.inl hc2)),
      not_term_of_scheme_lower (Or.inr (Or.inl hc3)),
      not_term_of_scheme_lower (Or.inr (Or.inr (Or.inl hc4))),
      by decide, by decide, by decide, hb3⟩
  simp only [Bool.and_eq_true, Bool.or_eq_true]
  exact ⟨Or.inl ⟨htake, hdec⟩, hall⟩

theorem urlShapedB_https (c1 c2 c3 c4 c5 : Char) (body : List Char)
    (hc1 : c1.toLower = 'h') (hc2 : c2.toLower = 't') (hc3 : c3.toLower = 't')
    (hc4 : c4.toLower = 'p') (hc5 : c5.toLower = 's') (hb2 : body ≠ [])
    (hb3 : body.all (fun c => !isTermChar c) = true) :
    urlShapedB (c1 :: c2 :: c3 :: c4 :: c5 :: ':' :: '/' :: '/' :: body) = true := by
  unfold urlShapedB
  have hmap : (c1 :: c2 :: c3 :: c4 :: c5 :: ':' :: '/' :: '/' :: body).map Char.toLower
      = 'h' :: 't' :: 't' :: 'p' :: 's' :: ':' :: '/' :: '/' :: body.map Char.toLower := by
    simp [hc1, hc2, hc3, hc4, hc5]
  have htake : (((c1 :: c2 :: c3 :: c4 :: c5 :: ':' :: '/' :: '/' :: body).map Char.toLower).take 8
      == "https://".data) = true := by
    rw [hmap]
    rfl
  have hdec : decide (9 ≤ (c1 :: c2 :: c3 :: c4 :: c5 :: ':' :: '/' :: '/' :: body).length)
      = true := by
    simp only [decide_eq_true_eq, List.length_cons]
    have := List.length_pos.mpr hb2
    omega
  have hall : (c1 :: c2 :: c3 :: c4 :: c5 :: ':' :: '/' :: '/' :: body).all
      (fun c => !isTermChar c) = true := by
    simp only [List.all_cons, Bool.and_eq_true]
    refine ⟨not_term_of_scheme_lower (Or.inl hc1),
      not_term_of_scheme_lower (Or.inr (Or.inl hc2)),
      not_term_of_scheme_lower (Or.inr (Or.inl hc3)),
      not_term_of_scheme_lower (Or.inr (Or.inr (Or.inl hc4))),
      not_term_of_scheme_lower (Or.inr (Or.inr (Or.inr hc5))),
      by decide, by decide, by decide, hb3⟩
  simp only [Bool.and_eq_true, Bool.or_eq_true]
  exact ⟨Or.inr ⟨htake, hdec⟩, hall⟩

theorem matchHttpAt_shape {l : List Char} {m r : List Char}
    (h : matchHttpAt l = some (m, r)) : urlShapedB m = true := by
  unfold matchHttpAt at h
  split at h
  · next c1 c2 c3 c4 rest =>
    split at h
    · next hg =>
      rw [Option.map_eq_some'] at h
      obtain ⟨⟨q1, q2⟩, hq, heq⟩ := h
      simp only [Prod.mk.injEq] at heq
      simp only [Bool.and_eq_true, beq_iff_eq] at hg
      obtain ⟨⟨⟨hc1, hc2⟩, hc3⟩, hc4⟩ := hg
      rcases afterScheme_shape hq with ⟨body, hb1, hb2, hb3⟩ | ⟨c5, body, hc5, hb1, hb2, hb3⟩
      · rw [← heq.1, hb1]
        exact urlShapedB_http c1 c2 c3 c4 body hc1 hc2 hc3 hc4 hb2 hb3
      · rw [← heq.1, hb1]
        exact urlShapedB_https c1 c2 c3 c4 c5 body hc1 hc2 hc3 hc4 hc5 hb2 hb3
    · simp at h
  · simp at h

theorem scanUrlsAux_shape : ∀ (fuel : Nat) (l : List Char) (cs : List Char),
    cs ∈ scanUrlsAux fuel l → urlShapedB cs = true := by
  intro fuel
  induction fuel with
  | zero => intro l cs h; simp [scanUrlsAux] at h
  | succ f ih =>
    intro l cs h
    simp only [scanUrlsAux] at h
    cases hm : matchHttpAt l with
    | some p =>
      rw [hm] at h
      rcases List.mem_cons.mp h with rfl | h'
      · exact matchHttpAt_shape hm
      · exact ih p.2 cs h'
    | none =>
      rw [hm] at h
      cases l with
      | nil => simp at h
      | cons a rest => exact ih rest cs h

/-- C7: the link extractor (`URL_RE.findall`) yields `[]` on empty text; every
extracted entry starts with a case-insensitive `http://` or `https://` scheme
followed by at least one character and contains no terminator character
(whitespace or `< > ( ) " '`); and the scan preserves first-occurrence order
and keeps intra-message duplicates as separate entries. -/
theorem claim7_extractor :
    urlFindall "" = []
    ∧ (∀ t u : String, u ∈ urlFindall t → urlShapedB u.data = true)
    ∧ urlFindall "veja http://x.io/p e http://x.io/p e (HTTPS://Y.io)"
      = ["http://x.io/p", "http://x.io/p", "HTTPS://Y.io"] := by
  refine ⟨by decide, ?_, by decide⟩
  intro t u hu
  unfold urlFindall at hu
  obtain ⟨cs, hcs, rfl⟩ := List.mem_map.mp hu
  exact scanUrlsAux_shape _ _ _ hcs

/-- Witness for C7's shape clause at a concrete text. -/
theorem claim7_witness : urlShapedB ("https://loja.com/p/1".data) = true :=
  claim7_extractor.2.1 "promo top https://loja.com/p/1" "https://loja.com/p/1" (by decide)

end Biosite
